import Mathlib

/-!
Verification of the TaskMate client (static/js/script.js).

The file script.js contains several superseded iterations of the same
functions; under JavaScript declaration semantics the last declaration of
each name is the one in effect, so the definitions below embed the final
versions (parseTimeString at line 2795, isOvernightEvent at 2803,
getNextDayTimeRange at 2817, getCurrentDayTimeRange at 2825,
calculateEventPosition at 2833, loadEvents at 2294, deleteCompletedTask at
3316, markEventCompleted at 3418, and the click handlers of
renderEventItem at 2675 and showEventDetails at 3239).

JavaScript strings are embedded as List Char.  JavaScript numbers are
embedded as Option Rat, with none playing the role of NaN: every
arithmetic operation propagates none, and every comparison involving
none is false, exactly as NaN behaves under +, -, *, /, <, <=, ===.
(parseInt's hexadecimal 0x-prefix mode and JS division by zero, which
yields Infinity, are not modelled; no input reachable in these functions
exercises either: the only division is by the literal 60.)
-/

set_option maxRecDepth 4000

/-- JavaScript whitespace recognised by String.prototype.trim and by
parseInt (ASCII subset; Unicode space classes are not modelled). -/
def isJsWS (c : Char) : Bool :=
  c = ' ' || c = '\t' || c = '\n' || c = '\r' || c = '\x0b' || c = '\x0c'

/-- String.prototype.trim: drop leading and trailing whitespace. -/
def jsTrim (l : List Char) : List Char :=
  ((l.dropWhile isJsWS).reverse.dropWhile isJsWS).reverse

/-- String.prototype.split with a single-character separator:
"".split(c) is [""], and every occurrence of c separates fields. -/
def splitOnChar (c : Char) : List Char → List (List Char)
  | [] => [[]]
  | x :: xs =>
    if x = c then [] :: splitOnChar c xs
    else
      match splitOnChar c xs with
      | [] => [[x]]
      | p :: ps => (x :: p) :: ps

/-- Accumulate the value of a maximal leading run of decimal digits. -/
def digitsVal : List Char → Nat → Nat
  | [], acc => acc
  | c :: cs, acc => if c.isDigit then digitsVal cs (acc * 10 + (c.toNat - 48)) else acc

/-- Value of a string that must start with a decimal digit; none otherwise
(parseInt returns NaN when no digits follow the optional sign). -/
def leadingDigitsInt : List Char → Option ℚ
  | [] => none
  | c :: cs => if c.isDigit then some ((digitsVal (c :: cs) 0 : Nat) : ℚ) else none

/-- The sign-and-digits stage of parseInt, after whitespace is gone. -/
def jsParseIntAfterWS : List Char → Option ℚ
  | [] => none
  | c :: rest =>
    if c = '+' then leadingDigitsInt rest
    else if c = '-' then (leadingDigitsInt rest).map (fun q => -q)
    else leadingDigitsInt (c :: rest)

/-- JavaScript parseInt in base 10: skip whitespace, optional sign, then a
maximal run of decimal digits; NaN (none) when no digit is found. -/
def jsParseInt (l : List Char) : Option ℚ :=
  jsParseIntAfterWS (l.dropWhile isJsWS)

/-- JS addition with NaN propagation. -/
def jsAdd : Option ℚ → Option ℚ → Option ℚ
  | some a, some b => some (a + b)
  | _, _ => none

/-- JS subtraction with NaN propagation. -/
def jsSub : Option ℚ → Option ℚ → Option ℚ
  | some a, some b => some (a - b)
  | _, _ => none

/-- JS multiplication with NaN propagation. -/
def jsMul : Option ℚ → Option ℚ → Option ℚ
  | some a, some b => some (a * b)
  | _, _ => none

/-- JS division with NaN propagation (division by zero, which JS sends to
Infinity, does not occur: the only divisor used is the literal 60). -/
def jsDiv : Option ℚ → Option ℚ → Option ℚ
  | some a, some b => some (a / b)
  | _, _ => none

/-- JS strict less-than: false whenever an operand is NaN. -/
def jsLt : Option ℚ → Option ℚ → Bool
  | some a, some b => decide (a < b)
  | _, _ => false

/-- JS less-or-equal: false whenever an operand is NaN. -/
def jsLe : Option ℚ → Option ℚ → Bool
  | some a, some b => decide (a ≤ b)
  | _, _ => false

/-- JS strict equality on numbers: false whenever an operand is NaN
(NaN === NaN is false). -/
def jsStrictEq : Option ℚ → Option ℚ → Bool
  | some a, some b => decide (a = b)
  | _, _ => false

/-- Result record of parseTimeString. -/
structure ParsedTime where
  hour : Option ℚ
  minute : Option ℚ
deriving DecidableEq

/-- parts[1] || 0 fed to parseInt: an absent or empty second token is
falsy, so 0 is parsed instead. -/
def minuteToken (parts : List (List Char)) : Option ℚ :=
  match parts.get? 1 with
  | none => some 0
  | some [] => some 0
  | some t => jsParseInt t

/-- script.js line 2795: parseTimeString(timeStr) splits the trimmed
string on a colon and parses hour and minute with parseInt. -/
def parseTimeString (timeStr : List Char) : ParsedTime :=
  let parts := splitOnChar ':' (jsTrim timeStr)
  { hour := jsParseInt (parts.headD []), minute := minuteToken parts }

/-- script.js line 2803: isOvernightEvent(timeRange) is false for an
empty string or a string that does not split into exactly two fields on
a dash; otherwise true iff the end is (hour, minute)-lexicographically
below the start. -/
def isOvernightEvent (timeRange : List Char) : Bool :=
  if timeRange.isEmpty then false
  else
    match splitOnChar '-' timeRange with
    | [p0, p1] =>
      let startTime := parseTimeString p0
      let endTime := parseTimeString p1
      jsLt endTime.hour startTime.hour ||
        (jsStrictEq endTime.hour startTime.hour && jsLt endTime.minute startTime.minute)
    | _ => false

/-- script.js line 2817: getNextDayTimeRange returns null for a
non-overnight range, else "00:00-" followed by the original end token. -/
def getNextDayTimeRange (timeRange : List Char) : Option (List Char) :=
  if ! isOvernightEvent timeRange then none
  else some (String.toList "00:00-" ++ (splitOnChar '-' timeRange).getD 1 [])

/-- script.js line 2825: getCurrentDayTimeRange returns a non-overnight
range unchanged, else the original start token followed by "-24:00". -/
def getCurrentDayTimeRange (timeRange : List Char) : List Char :=
  if ! isOvernightEvent timeRange then timeRange
  else (splitOnChar '-' timeRange).headD [] ++ String.toList "-24:00"

/-- Pixel geometry record returned by calculateEventPosition; each
component is a JS number and can be NaN. -/
structure Position where
  top : Option ℚ
  height : Option ℚ
deriving DecidableEq

/-- script.js line 2833: calculateEventPosition(timeRange) is null for an
empty string or a wrong field count; otherwise top is
(startHour + startMinute/60) * 40 + 30 and the height is the duration in
hours times 40, where a non-positive duration is reinterpreted with the
overnight wrap-around formula. -/
def calculateEventPosition (timeRange : List Char) : Option Position :=
  if timeRange.isEmpty then none
  else
    match splitOnChar '-' timeRange with
    | [p0, p1] =>
      let startTime := parseTimeString p0
      let endTime := parseTimeString p1
      let top := jsAdd (jsMul (jsAdd startTime.hour (jsDiv startTime.minute (some 60)))
        (some 40)) (some 30)
      let d0 := jsAdd (jsSub endTime.hour startTime.hour)
        (jsDiv (jsSub endTime.minute startTime.minute) (some 60))
      let durationHours :=
        if jsLe d0 (some 0) then
          jsAdd (jsSub (jsSub (some 24) startTime.hour) (jsDiv startTime.minute (some 60)))
            (jsAdd endTime.hour (jsDiv endTime.minute (some 60)))
        else d0
      some { top := top, height := jsMul durationHours (some 40) }
    | _ => none

/-- script.js lines 2939-2963 (week view, per event): the block rendered
on the event's own day uses the current-day split of an overnight range,
the unsplit range otherwise. -/
def weekViewTodayPosition (timeRange : List Char) : Option Position :=
  let r := if isOvernightEvent timeRange then getCurrentDayTimeRange timeRange else timeRange
  calculateEventPosition r

/-- script.js line 2945: the guard "if (currentDayPosition)" — null is
falsy and skips the block, every object (even one with NaN fields) is
truthy and creates it. -/
def weekViewTodayBlockCreated (timeRange : List Char) : Bool :=
  (weekViewTodayPosition timeRange).isSome

/-- The sum of the heights of the two blocks an overnight range is split
into (its current-day part and its next-day part), when both exist. -/
def splitHeightSum (timeRange : List Char) : Option ℚ :=
  match calculateEventPosition (getCurrentDayTimeRange timeRange),
      (getNextDayTimeRange timeRange).bind calculateEventPosition with
  | some p1, some p2 => jsAdd p1.height p2.height
  | _, _ => none

/-!
MutationGuard.  script.js lines 2157-2159 declare the two session sets:
processingEvents (ids with a request in flight) and completedEvents (ids
already handled this session, the settled set of the specification).
Event ids are embedded as Nat; the two sets as Finset Nat, matching the
add/delete/has semantics of a JS Set.  The DOM is embedded as a list of
element records carrying exactly the style and button state these
handlers read and write.
-/

/-- The two deduplication sets of the mutation guard. -/
structure GuardState where
  processing : Finset Nat
  completed : Finset Nat
deriving DecidableEq

/-- A button inside an event element (class list, disabled flag, label). -/
structure JsButton where
  classes : List String
  disabled : Bool
  textContent : String
deriving DecidableEq

/-- An event-item DOM element: the data-event-id and data-date attributes,
the class list, the style properties these handlers touch, and its
buttons. -/
structure JsElem where
  eventId : Nat
  date : String
  classes : List String
  opacity : String
  pointerEvents : String
  transition : String
  transform : String
  buttons : List JsButton
deriving DecidableEq

/-- Externally visible actions performed by a handler, in program order.
A request records its HTTP method, URL and, for the completion POST, the
JSON body fields (completed, date). -/
inductive Act where
  | request (method : String) (url : String) (body : Option (Bool × String))
  | confirmPrompt
  | alertShown (msg : String)
  | notified (msg : String)
  | scheduleRemoval (delayMs : Nat)
  | scheduleReload (delayMs : Nat)
deriving DecidableEq

/-- classList.add: a class token is added only when not yet present. -/
def classListAdd (cl : String) (cs : List String) : List String :=
  if cl ∈ cs then cs else cs ++ [cl]

/-- Disable every button and set its label to "..." (script.js lines
3336-3340 and 3449-3453). -/
def disableAllButtons (bs : List JsButton) : List JsButton :=
  bs.map fun b => { b with disabled := true, textContent := "..." }

/-- Optimistic visual mutation of one element in markEventCompleted
(script.js lines 3437-3453): add the completing class, fade, disable. -/
def markElemCompleting (e : JsElem) : JsElem :=
  { e with
    classes := classListAdd ("completing") e.classes
    opacity := "0.3"
    pointerEvents := "none"
    transition := "all 0.5s ease"
    transform := "translateX(100%)"
    buttons := disableAllButtons e.buttons }

/-- Optimistic visual mutation of one element in deleteCompletedTask
(script.js lines 3329-3340): same styling but no completing class. -/
def markElemDeleting (e : JsElem) : JsElem :=
  { e with
    opacity := "0.3"
    pointerEvents := "none"
    transition := "all 0.5s ease"
    transform := "translateX(100%)"
    buttons := disableAllButtons e.buttons }

/-- script.js lines 3418-3482, the synchronous prefix of
markEventCompleted(eventId, completed) up to and including the fetch:
reject when the id is settled, reject when it is in flight, otherwise add
to processing, apply the optimistic mutation (scheduling a 500ms removal
per matching element), add to completed, and POST to
/api/events/id/complete with the completed flag and the date taken from
the first matching element (falling back to today's date string). -/
def markEventCompletedStart (eventId : Nat) (completed : Bool) (currentDateStr : String)
    (s : GuardState) (dom : List JsElem) : GuardState × List JsElem × List Act :=
  if eventId ∈ s.completed then (s, dom, [])
  else if eventId ∈ s.processing then (s, dom, [])
  else
    let s1 : GuardState := { s with processing := insert eventId s.processing }
    let matching := dom.filter (fun e => e.eventId = eventId)
    let dom1 := dom.map fun e => if e.eventId = eventId then markElemCompleting e else e
    let s2 : GuardState := { s1 with completed := insert eventId s1.completed }
    let eventDate := ((dom.find? (fun e => e.eventId = eventId)).map (fun e => e.date)).getD
      currentDateStr
    (s2, dom1,
      matching.map (fun _ => Act.scheduleRemoval 500) ++
        [Act.request ("POST") ("/api/events/" ++ toString eventId ++ "/complete")
          (some (completed, eventDate))])

/-- The JSON body of a mutation response. -/
structure RespData where
  status : String
  message : String
deriving DecidableEq

/-- Restore the first complete-button of an element (querySelector picks
the first match; script.js lines 3517-3521). -/
def restoreFirstCompleteButton : List JsButton → List JsButton
  | [] => []
  | b :: bs =>
    if "complete-button" ∈ b.classes then
      { b with disabled := false, textContent := "○" } :: bs
    else b :: restoreFirstCompleteButton bs

/-- Revert the optimistic mutation of one element (script.js lines
3509-3522): drop the completing class, restore opacity, pointer events
and transform, re-enable the complete button. -/
def restoreElem (e : JsElem) : JsElem :=
  { e with
    classes := e.classes.erase ("completing")
    opacity := "1"
    pointerEvents := "auto"
    transform := "translateX(0)"
    buttons := restoreFirstCompleteButton e.buttons }

/-- The rollback pass of markEventCompleted: every element currently
carrying the completing class is restored (the query is
".event-item.completing", not keyed by id). -/
def restoreCompletingElems (dom : List JsElem) : List JsElem :=
  dom.map fun e => if "completing" ∈ e.classes then restoreElem e else e

/-- script.js lines 3483-3549, the response handler of
markEventCompleted; resp = none embeds a transport error landing in the
catch block.  Success: remove from processing, notify, schedule a 700ms
reload, leave the settled set populated.  Failure status or transport
error: remove from processing AND from completed, alert, restore every
completing element. -/
def markEventCompletedSettle (eventId : Nat) (resp : Option RespData)
    (s : GuardState) (dom : List JsElem) : GuardState × List JsElem × List Act :=
  match resp with
  | some data =>
    let s1 : GuardState := { s with processing := s.processing.erase eventId }
    if data.status = "success" then
      (s1, dom, [Act.notified ("事件已标记为已完成"), Act.scheduleReload 700])
    else
      ({ s1 with completed := s1.completed.erase eventId },
        restoreCompletingElems dom,
        [Act.alertShown ("更新事件状态失败: " ++ data.message)])
  | none =>
    ({ processing := s.processing.erase eventId, completed := s.completed.erase eventId },
      restoreCompletingElems dom,
      [Act.alertShown ("更新事件状态时发生错误")])

/-- script.js lines 3316-3355, the synchronous prefix of
deleteCompletedTask(taskId) up to and including the fetch: reject only
when the id is in flight; otherwise add it to processing only (the
settled set is neither consulted nor updated here), apply the optimistic
mutation, and issue the DELETE. -/
def deleteCompletedTaskStart (taskId : Nat) (s : GuardState) (dom : List JsElem) :
    GuardState × List JsElem × List Act :=
  if taskId ∈ s.processing then (s, dom, [])
  else
    let s1 : GuardState := { s with processing := insert taskId s.processing }
    let matching := dom.filter (fun e => e.eventId = taskId)
    let dom1 := dom.map fun e => if e.eventId = taskId then markElemDeleting e else e
    (s1, dom1,
      matching.map (fun _ => Act.scheduleRemoval 500) ++
        [Act.request ("DELETE") ("/api/completed-tasks/" ++ toString taskId) none])

/-- script.js lines 2727-2755, the click handler of the delete button
built by renderEventItem: reject when the id is settled; show the
confirmation prompt and stop on cancel; on accept add the id to the
settled set and call deleteCompletedTask.  (The handler's direct styling
of its own element is subsumed by deleteCompletedTask's pass over all
matching elements and is not repeated here.) -/
def renderItemDeleteClick (eventId : Nat) (accepted : Bool) (s : GuardState)
    (dom : List JsElem) : GuardState × List JsElem × List Act :=
  if eventId ∈ s.completed then (s, dom, [])
  else if ! accepted then (s, dom, [Act.confirmPrompt])
  else
    let s1 : GuardState := { s with completed := insert eventId s.completed }
    let r := deleteCompletedTaskStart eventId s1 dom
    (r.1, r.2.1, Act.confirmPrompt :: r.2.2)

/-- script.js lines 3290-3296, the click handler of the delete button
built by showEventDetails: it calls deleteCompletedTask directly — the
source comments that no confirmation dialog is shown. -/
def detailsDeleteClick (eventId : Nat) (s : GuardState) (dom : List JsElem) :
    GuardState × List JsElem × List Act :=
  deleteCompletedTaskStart eventId s dom

/-- Count the requests among a handler's actions that POST to the
completion endpoint of the given id. -/
def countCompletePosts (eventId : Nat) (acts : List Act) : Nat :=
  (acts.filter fun a =>
    match a with
    | Act.request m u _ => m = "POST" && u = "/api/events/" ++ toString eventId ++ "/complete"
    | _ => false).length

/-- Count all requests among a handler's actions. -/
def countRequests (acts : List Act) : Nat :=
  (acts.filter fun a =>
    match a with
    | Act.request _ _ _ => true
    | _ => false).length

/-- Count the requests that DELETE the completed-task endpoint of the
given id. -/
def countDeleteRequests (taskId : Nat) (acts : List Act) : Nat :=
  (acts.filter fun a =>
    match a with
    | Act.request m u _ => m = "DELETE" && u = "/api/completed-tasks/" ++ toString taskId
    | _ => false).length

/-- A sample faded event element, as the optimistic phase of
markEventCompleted leaves it, used in concrete checks. -/
def sampleFadedElem : JsElem :=
  { eventId := 42
    date := "2024-06-02"
    classes := ["event-item", "completing"]
    opacity := "0.3"
    pointerEvents := "none"
    transition := "all 0.5s ease"
    transform := "translateX(100%)"
    buttons := [{ classes := ["complete-button"], disabled := true, textContent := "..." }] }

/-- The same element after the rollback pass. -/
def sampleRestoredElem : JsElem :=
  { eventId := 42
    date := "2024-06-02"
    classes := ["event-item"]
    opacity := "1"
    pointerEvents := "auto"
    transition := "all 0.5s ease"
    transform := "translateX(0)"
    buttons := [{ classes := ["complete-button"], disabled := false, textContent := "○" }] }

/-!
loadEvents.  script.js lines 2162-2164 declare the guard flag
isLoadingEvents, the counter loadEventsRetryCount and the constant
MAX_RETRY_COUNT = 3.
-/

/-- The loading guard state. -/
structure LoadState where
  isLoading : Bool
  retryCount : Nat
deriving DecidableEq

/-- script.js line 2164. -/
def MAX_RETRY_COUNT : Nat := 3

/-- Externally visible actions of the load path. -/
inductive LoadAct where
  | loadingShown
  | loadingHidden
  | errorNotified
  | fetchIssued
  | retryScheduled (delayMs : Nat)
deriving DecidableEq

/-- script.js lines 2294-2327 and 2392, the synchronous prefix of
loadEvents(retry): return at once when a load is outstanding and this is
not a retry; on a retry bump the counter and, past MAX_RETRY_COUNT,
abandon (reset the flag and counter, hide the indicator, notify) without
fetching; otherwise show the indicator and issue the fetch. -/
def loadEventsStart (retry : Bool) (s : LoadState) : LoadState × List LoadAct :=
  if s.isLoading && ! retry then (s, [])
  else if retry && decide (MAX_RETRY_COUNT < s.retryCount + 1) then
    ({ isLoading := false, retryCount := 0 }, [LoadAct.loadingHidden, LoadAct.errorNotified])
  else
    ({ isLoading := true, retryCount := if retry then s.retryCount + 1 else 0 },
      [LoadAct.loadingShown, LoadAct.fetchIssued])

/-- script.js lines 2420-2441, the catch handler of the list fetch.
transient embeds the test "AbortError, or a message containing network or
failed".  A transient failure leaves the guard state alone and schedules
loadEvents(true) after a fixed 1000ms; any other error resets the state,
hides the indicator and notifies. -/
def loadEventsOnError (transient : Bool) (s : LoadState) : LoadState × List LoadAct :=
  if transient then (s, [LoadAct.retryScheduled 1000])
  else ({ isLoading := false, retryCount := 0 }, [LoadAct.loadingHidden, LoadAct.errorNotified])

/-- The run in which every issued fetch fails transiently: each fetch is
followed by the catch handler and the scheduled retry invocation, until
an invocation no longer fetches.  Returns the per-invocation action lists
and the final guard state. -/
def allFailRun : Nat → Bool → LoadState → List (List LoadAct) × LoadState
  | 0, _, s => ([], s)
  | n + 1, retry, s =>
    let r1 := loadEventsStart retry s
    if LoadAct.fetchIssued ∈ r1.2 then
      let r2 := loadEventsOnError true r1.1
      let rest := allFailRun n true r2.1
      ((r1.2 ++ r2.2) :: rest.1, rest.2)
    else ([r1.2], r1.1)

/-! Helper lemmas about the string primitives. -/

theorem splitOnChar_ne_nil (c : Char) (l : List Char) : splitOnChar c l ≠ [] := by
  induction l with
  | nil => simp [splitOnChar]
  | cons x xs ih =>
    unfold splitOnChar
    by_cases hx : x = c
    · simp [hx]
    · simp only [if_neg hx]
      cases h : splitOnChar c xs with
      | nil => simp
      | cons p ps => simp

theorem splitOnChar_of_not_mem {c : Char} {l : List Char} (h : c ∉ l) :
    splitOnChar c l = [l] := by
  induction l with
  | nil => rfl
  | cons x xs ih =>
    have hx : x ≠ c := fun he => h (he ▸ List.mem_cons_self x xs)
    have hxs : c ∉ xs := fun hm => h (List.mem_cons_of_mem _ hm)
    unfold splitOnChar
    rw [if_neg hx, ih hxs]

theorem splitOnChar_append {c : Char} {l1 : List Char} (l2 : List Char) (h : c ∉ l1) :
    splitOnChar c (l1 ++ c :: l2) = l1 :: splitOnChar c l2 := by
  induction l1 with
  | nil => simp [splitOnChar]
  | cons x xs ih =>
    have hx : x ≠ c := fun he => h (he ▸ List.mem_cons_self x xs)
    have hxs : c ∉ xs := fun hm => h (List.mem_cons_of_mem _ hm)
    have e2 : splitOnChar c (x :: (xs ++ c :: l2)) =
        if x = c then [] :: splitOnChar c (xs ++ c :: l2)
        else match splitOnChar c (xs ++ c :: l2) with
          | [] => [[x]]
          | p :: ps => (x :: p) :: ps := rfl
    rw [List.cons_append, e2, if_neg hx, ih hxs]

theorem not_mem_of_mem_splitOnChar {c : Char} {l : List Char} {p : List Char}
    (h : p ∈ splitOnChar c l) : c ∉ p := by
  induction l generalizing p with
  | nil =>
    simp [splitOnChar] at h
    simp [h]
  | cons x xs ih =>
    unfold splitOnChar at h
    by_cases hx : x = c
    · rw [if_pos hx] at h
      rcases List.mem_cons.1 h with h1 | h1
      · simp [h1]
      · exact ih h1
    · rw [if_neg hx] at h
      cases e : splitOnChar c xs with
      | nil => exact absurd e (splitOnChar_ne_nil c xs)
      | cons q qs =>
        rw [e] at h
        rcases List.mem_cons.1 h with h1 | h1
        · subst h1
          have hq : c ∉ q := ih (e ▸ List.mem_cons_self q qs)
          intro hm
          rcases List.mem_cons.1 hm with h2 | h2
          · exact hx h2.symm
          · exact hq h2
        · exact ih (e ▸ List.mem_cons_of_mem q h1)

theorem dropWhile_eq_self_of {p : Char → Bool} {l : List Char}
    (h : ∀ c ∈ l, p c = false) : l.dropWhile p = l := by
  cases l with
  | nil => rfl
  | cons a l => simp [List.dropWhile_cons, h a (by simp)]

theorem jsTrim_eq_self {l : List Char} (h : ∀ c ∈ l, isJsWS c = false) : jsTrim l = l := by
  unfold jsTrim
  rw [dropWhile_eq_self_of h,
    dropWhile_eq_self_of (fun c hc => h c (List.mem_reverse.1 hc)), List.reverse_reverse]

/-! Digit strings.  digitChar d is the ASCII digit for d; pad2 renders a
number below 100 as two zero-padded digits, the format of the HH and MM
fields of a time range. -/

/-- The ASCII digit character for d below 10. -/
def digitChar (d : Nat) : Char := Char.ofNat (48 + d)

/-- Two-digit zero-padded rendering of n below 100. -/
def pad2 (n : Nat) : List Char := [digitChar (n / 10), digitChar (n % 10)]

/-- The time token "HH:MM" for the given hour and minute values. -/
def mkTimeToken (h m : Nat) : List Char := pad2 h ++ ':' :: pad2 m

/-- The time range "HH:MM-HH:MM" for the given start and end values. -/
def mkRange (sh sm eh em : Nat) : List Char := mkTimeToken sh sm ++ '-' :: mkTimeToken eh em

theorem digitChar_isDigit {d : Nat} (h : d < 10) : (digitChar d).isDigit = true := by
  interval_cases d <;> decide

theorem digitChar_toNat {d : Nat} (h : d < 10) : (digitChar d).toNat - 48 = d := by
  interval_cases d <;> decide

theorem digitChar_ne_colon {d : Nat} (h : d < 10) : digitChar d ≠ ':' := by
  interval_cases d <;> decide

theorem digitChar_ne_dash {d : Nat} (h : d < 10) : digitChar d ≠ '-' := by
  interval_cases d <;> decide

theorem digitChar_ne_plus {d : Nat} (h : d < 10) : digitChar d ≠ '+' := by
  interval_cases d <;> decide

theorem digitChar_not_ws {d : Nat} (h : d < 10) : isJsWS (digitChar d) = false := by
  interval_cases d <;> decide

theorem jsParseInt_pad2 {n : Nat} (h : n < 100) : jsParseInt (pad2 n) = some (n : ℚ) := by
  have h1 : n / 10 < 10 := by omega
  have h2 : n % 10 < 10 := by omega
  have hdw : (pad2 n).dropWhile isJsWS = pad2 n :=
    dropWhile_eq_self_of (by
      intro c hc
      simp only [pad2, List.mem_cons, List.not_mem_nil, or_false] at hc
      rcases hc with rfl | rfl
      · exact digitChar_not_ws h1
      · exact digitChar_not_ws h2)
  unfold jsParseInt
  rw [hdw]
  show (if digitChar (n / 10) = '+' then leadingDigitsInt [digitChar (n % 10)]
    else if digitChar (n / 10) = '-' then
      (leadingDigitsInt [digitChar (n % 10)]).map (fun q => -q)
    else leadingDigitsInt [digitChar (n / 10), digitChar (n % 10)]) = some (n : ℚ)
  rw [if_neg (digitChar_ne_plus h1), if_neg (digitChar_ne_dash h1)]
  show (if (digitChar (n / 10)).isDigit = true then
    some ((digitsVal [digitChar (n / 10), digitChar (n % 10)] 0 : Nat) : ℚ) else none) =
      some (n : ℚ)
  rw [if_pos (digitChar_isDigit h1)]
  show some ((digitsVal [digitChar (n / 10), digitChar (n % 10)] 0 : Nat) : ℚ) = some (n : ℚ)
  have e1 : digitsVal [digitChar (n / 10), digitChar (n % 10)] 0 =
      if (digitChar (n / 10)).isDigit then
        digitsVal [digitChar (n % 10)] (0 * 10 + ((digitChar (n / 10)).toNat - 48))
      else 0 := rfl
  have e2 : ∀ acc : Nat, digitsVal [digitChar (n % 10)] acc =
      if (digitChar (n % 10)).isDigit then
        digitsVal [] (acc * 10 + ((digitChar (n % 10)).toNat - 48))
      else acc := fun acc => rfl
  rw [e1, if_pos (digitChar_isDigit h1), e2, if_pos (digitChar_isDigit h2)]
  show some (((0 * 10 + ((digitChar (n / 10)).toNat - 48)) * 10 +
    ((digitChar (n % 10)).toNat - 48) : Nat) : ℚ) = some (n : ℚ)
  rw [digitChar_toNat h1, digitChar_toNat h2]
  have e3 : (0 * 10 + n / 10) * 10 + n % 10 = n := by omega
  rw [e3]

theorem colon_not_mem_pad2 {n : Nat} (h : n < 100) : ':' ∉ pad2 n := by
  have h1 : n / 10 < 10 := by omega
  have h2 : n % 10 < 10 := by omega
  simp only [pad2, List.mem_cons, List.not_mem_nil, or_false]
  push_neg
  exact ⟨(digitChar_ne_colon h1).symm, (digitChar_ne_colon h2).symm⟩

theorem dash_not_mem_pad2 {n : Nat} (h : n < 100) : '-' ∉ pad2 n := by
  have h1 : n / 10 < 10 := by omega
  have h2 : n % 10 < 10 := by omega
  simp only [pad2, List.mem_cons, List.not_mem_nil, or_false]
  push_neg
  exact ⟨(digitChar_ne_dash h1).symm, (digitChar_ne_dash h2).symm⟩

theorem ws_not_mem_token {h m : Nat} (hh : h < 100) (hm : m < 100) :
    ∀ c ∈ mkTimeToken h m, isJsWS c = false := by
  have h1 : h / 10 < 10 := by omega
  have h2 : h % 10 < 10 := by omega
  have h3 : m / 10 < 10 := by omega
  have h4 : m % 10 < 10 := by omega
  intro c hc
  simp only [mkTimeToken, pad2, List.cons_append, List.nil_append, List.mem_cons,
    List.not_mem_nil, or_false] at hc
  rcases hc with rfl | rfl | rfl | rfl | rfl
  · exact digitChar_not_ws h1
  · exact digitChar_not_ws h2
  · decide
  · exact digitChar_not_ws h3
  · exact digitChar_not_ws h4

theorem dash_not_mem_token {h m : Nat} (hh : h < 100) (hm : m < 100) :
    '-' ∉ mkTimeToken h m := by
  intro hc
  simp only [mkTimeToken] at hc
  rcases List.mem_append.1 hc with h1 | h1
  · exact dash_not_mem_pad2 hh h1
  · rcases List.mem_cons.1 h1 with h2 | h2
    · exact absurd h2 (by decide)
    · exact dash_not_mem_pad2 hm h2

theorem parseTimeString_token {h m : Nat} (hh : h < 100) (hm : m < 100) :
    parseTimeString (mkTimeToken h m) = { hour := some (h : ℚ), minute := some (m : ℚ) } := by
  unfold parseTimeString
  rw [jsTrim_eq_self (ws_not_mem_token hh hm)]
  unfold mkTimeToken
  rw [splitOnChar_append _ (colon_not_mem_pad2 hh),
    splitOnChar_of_not_mem (colon_not_mem_pad2 hm)]
  have hcons : ∃ a b, pad2 m = [a, b] := ⟨_, _, rfl⟩
  obtain ⟨a, b, he⟩ := hcons
  simp only [List.headD, minuteToken, List.get?, he]
  rw [← he, jsParseInt_pad2 hh, jsParseInt_pad2 hm]

theorem splitDash_mkRange {sh sm eh em : Nat} (h1 : sh < 100) (h2 : sm < 100)
    (h3 : eh < 100) (h4 : em < 100) :
    splitOnChar '-' (mkRange sh sm eh em) = [mkTimeToken sh sm, mkTimeToken eh em] := by
  unfold mkRange
  rw [splitOnChar_append _ (dash_not_mem_token h1 h2),
    splitOnChar_of_not_mem (dash_not_mem_token h3 h4)]

theorem mkRange_ne_nil (sh sm eh em : Nat) : (mkRange sh sm eh em).isEmpty = false := by
  simp [mkRange, mkTimeToken, pad2]

theorem isOvernightEvent_mkRange {sh sm eh em : Nat} (h1 : sh < 100) (h2 : sm < 100)
    (h3 : eh < 100) (h4 : em < 100) :
    isOvernightEvent (mkRange sh sm eh em) =
      (decide ((eh : ℚ) < sh) || (decide ((eh : ℚ) = sh) && decide ((em : ℚ) < sm))) := by
  unfold isOvernightEvent
  rw [if_neg (by simp [mkRange_ne_nil sh sm eh em]), splitDash_mkRange h1 h2 h3 h4]
  simp only [parseTimeString_token h1 h2, parseTimeString_token h3 h4, jsLt, jsStrictEq]

theorem calculateEventPosition_mkRange {sh sm eh em : Nat} (h1 : sh < 100) (h2 : sm < 100)
    (h3 : eh < 100) (h4 : em < 100) :
    calculateEventPosition (mkRange sh sm eh em) =
      some { top := some (((sh : ℚ) + (sm : ℚ) / 60) * 40 + 30),
             height := some ((if (eh : ℚ) - sh + ((em : ℚ) - sm) / 60 ≤ 0 then
               24 - (sh : ℚ) - (sm : ℚ) / 60 + ((eh : ℚ) + (em : ℚ) / 60)
               else (eh : ℚ) - sh + ((em : ℚ) - sm) / 60) * 40) } := by
  unfold calculateEventPosition
  rw [if_neg (by simp [mkRange_ne_nil sh sm eh em]), splitDash_mkRange h1 h2 h3 h4]
  simp only [parseTimeString_token h1 h2, parseTimeString_token h3 h4,
    jsAdd, jsSub, jsMul, jsDiv, jsLe, decide_eq_true_eq]
  by_cases hd : (eh : ℚ) - sh + ((em : ℚ) - sm) / 60 ≤ 0
  · rw [if_pos hd, if_pos hd]
  · rw [if_neg hd, if_neg hd]

theorem filter_map_const_nil {α β : Type} (p : β → Bool) (f : β) (l : List α)
    (hp : p f = false) : (l.map (fun _ => f)).filter p = [] := by
  induction l with
  | nil => rfl
  | cons a l ih => simp [List.filter_cons, hp, ih]

theorem overnight_two_parts {l : List Char} (h : isOvernightEvent l = true) :
    ∃ p0 p1, splitOnChar '-' l = [p0, p1] := by
  unfold isOvernightEvent at h
  by_cases he : l.isEmpty
  · rw [if_pos he] at h
    exact absurd h (by simp)
  · rw [if_neg he] at h
    cases e : splitOnChar '-' l with
    | nil => exact absurd e (splitOnChar_ne_nil _ _)
    | cons p0 rest =>
      cases rest with
      | nil =>
        rw [e] at h
        exact absurd h (by simp)
      | cons p1 rest2 =>
        cases rest2 with
        | nil => exact ⟨p0, p1, rfl⟩
        | cons q qs =>
          rw [e] at h
          exact absurd h (by simp)

/-- C9: calculateEventPosition("09:00-09:00") returns exactly top 390 and
height 960: the zero-length range has durationHours = 0, hits the
durationHours <= 0 branch, and is reinterpreted by the wrap-around
formula as (24 - 9) + 9 = 24 hours, i.e. a 960-pixel block, not an error
and not a zero-height block. -/
theorem c9_zero_length_range_wraps :
    calculateEventPosition (String.toList "09:00-09:00") =
      some { top := some 390, height := some (24 * 40) } ∧ (24 * 40 : ℚ) = 960 := by
  exact ⟨by with_unfolding_all decide, by norm_num⟩

/-- C3 counterexample: "09:00-09:00" has valid fields and end = start, so
the claim's hypothesis (end greater than or equal to start) holds and its
formula predicts height 0; isOvernightEvent is indeed false, but the code
yields height 960, not 0. -/
theorem c3_counterexample :
    isOvernightEvent (String.toList "09:00-09:00") = false ∧
    calculateEventPosition (String.toList "09:00-09:00") =
      some { top := some 390, height := some 960 } ∧
    ((9 : ℚ) + (0 : ℚ) / 60 - (9 : ℚ) - (0 : ℚ) / 60) * 40 = 0 ∧ (960 : ℚ) ≠ 0 := by
  refine ⟨by decide, by with_unfolding_all decide, by norm_num, by norm_num⟩

/-- C3 (amended: end strictly greater than start; at end = start the code
takes the wrap-around branch and yields a 24-hour block instead of the
formula's 0): for every "HH:MM-HH:MM" with valid clock fields whose end
is strictly after its start, isOvernightEvent is false and
calculateEventPosition returns a record whose height is
(endHour + endMinute/60 - startHour - startMinute/60) * 40. -/
theorem c3_forward_range_height (sh sm eh em : Nat)
    (hsh : sh ≤ 23) (hsm : sm ≤ 59) (heh : eh ≤ 23) (hem : em ≤ 59)
    (hlt : sh < eh ∨ (sh = eh ∧ sm < em)) :
    isOvernightEvent (mkRange sh sm eh em) = false ∧
    calculateEventPosition (mkRange sh sm eh em) =
      some { top := some (((sh : ℚ) + (sm : ℚ) / 60) * 40 + 30),
             height := some (((eh : ℚ) + (em : ℚ) / 60 - (sh : ℚ) - (sm : ℚ) / 60) * 40) } := by
  have h1 : sh < 100 := by omega
  have h2 : sm < 100 := by omega
  have h3 : eh < 100 := by omega
  have h4 : em < 100 := by omega
  constructor
  · rw [isOvernightEvent_mkRange h1 h2 h3 h4]
    rcases hlt with h | ⟨he, hm⟩
    · have hC1 : ¬((eh : ℚ) < sh) := not_lt.2 (by exact_mod_cast le_of_lt h)
      have hC2 : ¬((eh : ℚ) = sh) := by
        intro hq
        have : eh = sh := by exact_mod_cast hq
        omega
      simp [hC1, hC2]
    · have hC1 : ¬((eh : ℚ) < sh) := not_lt.2 (le_of_eq (by exact_mod_cast he))
      have hC3 : ¬((em : ℚ) < sm) := not_lt.2 (by exact_mod_cast le_of_lt hm)
      simp [hC1, hC3]
  · rw [calculateEventPosition_mkRange h1 h2 h3 h4]
    have hd : ¬((eh : ℚ) - sh + ((em : ℚ) - sm) / 60 ≤ 0) := by
      intro hle
      have hsm59 : (sm : ℚ) ≤ 59 := by exact_mod_cast hsm
      have hem0 : (0 : ℚ) ≤ em := by positivity
      rcases hlt with h | ⟨he, hm⟩
      · have hc : (sh : ℚ) + 1 ≤ eh := by exact_mod_cast h
        linarith
      · have he' : (sh : ℚ) = eh := by exact_mod_cast he
        have hc : (sm : ℚ) + 1 ≤ em := by exact_mod_cast hm
        linarith
    rw [if_neg hd]
    have harith : ((eh : ℚ) - sh + ((em : ℚ) - sm) / 60) =
        (eh : ℚ) + (em : ℚ) / 60 - (sh : ℚ) - (sm : ℚ) / 60 := by ring
    rw [harith]

/-- C3 witness: the amended theorem applied at "09:00-10:30", whose
block evaluates to top 390 and height 60. -/
theorem c3_forward_range_height_witness :
    isOvernightEvent (mkRange 9 0 10 30) = false ∧
    calculateEventPosition (mkRange 9 0 10 30) =
      some { top := some 390, height := some 60 } := by
  have h := c3_forward_range_height 9 0 10 30 (by decide) (by decide) (by decide) (by decide)
    (Or.inl (by decide))
  exact ⟨h.1, by with_unfolding_all decide⟩

/-- C4 counterexample: "22:00-00:00" is a valid overnight range (end
strictly earlier than start), so the claim applies and predicts a height
sum of ((24 - 22) + 0) * 40 = 80; the splits are produced as claimed, but
the next-day split "00:00-00:00" itself hits the wrap-around branch and
gets height 960, so the sum is 1040, not 80. -/
theorem c4_counterexample :
    isOvernightEvent (String.toList "22:00-00:00") = true ∧
    getCurrentDayTimeRange (String.toList "22:00-00:00") = String.toList "22:00-24:00" ∧
    getNextDayTimeRange (String.toList "22:00-00:00") = some (String.toList "00:00-00:00") ∧
    splitHeightSum (String.toList "22:00-00:00") = some 1040 ∧
    ((24 : ℚ) - 22 + 0) * 40 = 80 ∧ (1040 : ℚ) ≠ 80 := by
  refine ⟨by decide, by decide, by decide, by with_unfolding_all decide, by norm_num, by norm_num⟩

/-- C4 (amended: the height-sum identity additionally requires the end
time to be strictly after midnight, i.e. not "00:00"; at end "00:00" the
next-day split "00:00-00:00" wraps around to a 960-pixel block): for
every valid overnight range, isOvernightEvent is true, the current-day
split is the start token followed by "-24:00", the next-day split is
"00:00-" followed by the end token, and — when the end is not 00:00 —
the heights of the two splits sum to
((24 - start in hours) + (end in hours)) * 40. -/
theorem c4_overnight_split (sh sm eh em : Nat)
    (hsh : sh ≤ 23) (hsm : sm ≤ 59) (heh : eh ≤ 23) (hem : em ≤ 59)
    (hlt : eh < sh ∨ (eh = sh ∧ em < sm)) :
    isOvernightEvent (mkRange sh sm eh em) = true ∧
    getCurrentDayTimeRange (mkRange sh sm eh em) =
      mkTimeToken sh sm ++ String.toList "-24:00" ∧
    getNextDayTimeRange (mkRange sh sm eh em) =
      some (String.toList "00:00-" ++ mkTimeToken eh em) ∧
    (eh ≠ 0 ∨ em ≠ 0 →
      splitHeightSum (mkRange sh sm eh em) =
        some ((24 - ((sh : ℚ) + (sm : ℚ) / 60) + ((eh : ℚ) + (em : ℚ) / 60)) * 40)) := by
  have h1 : sh < 100 := by omega
  have h2 : sm < 100 := by omega
  have h3 : eh < 100 := by omega
  have h4 : em < 100 := by omega
  have hov : isOvernightEvent (mkRange sh sm eh em) = true := by
    rw [isOvernightEvent_mkRange h1 h2 h3 h4]
    rcases hlt with h | ⟨he, hm⟩
    · have hc : (eh : ℚ) < sh := by exact_mod_cast h
      simp [hc]
    · have he' : (eh : ℚ) = sh := by exact_mod_cast he
      have hm' : (em : ℚ) < sm := by exact_mod_cast hm
      simp [he', hm']
  have hcur : getCurrentDayTimeRange (mkRange sh sm eh em) =
      mkTimeToken sh sm ++ String.toList "-24:00" := by
    simp [getCurrentDayTimeRange, hov, splitDash_mkRange h1 h2 h3 h4]
  have hnext : getNextDayTimeRange (mkRange sh sm eh em) =
      some (String.toList "00:00-" ++ mkTimeToken eh em) := by
    simp [getNextDayTimeRange, hov, splitDash_mkRange h1 h2 h3 h4]
  refine ⟨hov, hcur, hnext, ?_⟩
  intro hne
  have eqr1 : mkTimeToken sh sm ++ String.toList "-24:00" = mkRange sh sm 24 0 := by
    have hx : String.toList "-24:00" = '-' :: mkTimeToken 24 0 := by decide
    rw [hx]
    rfl
  have eqr2 : String.toList "00:00-" ++ mkTimeToken eh em = mkRange 0 0 eh em := by
    have hy : String.toList "00:00-" = mkTimeToken 0 0 ++ ['-'] := by decide
    rw [hy, List.append_assoc]
    rfl
  have hp1 := calculateEventPosition_mkRange h1 h2 (by omega : (24 : Nat) < 100)
    (by omega : (0 : Nat) < 100)
  have hd1 : ¬((((24 : Nat) : ℚ)) - sh + ((((0 : Nat) : ℚ)) - sm) / 60 ≤ 0) := by
    have hsh' : (sh : ℚ) ≤ 23 := by exact_mod_cast hsh
    have hsm' : (sm : ℚ) ≤ 59 := by exact_mod_cast hsm
    push_cast
    intro hle
    linarith
  rw [if_neg hd1] at hp1
  have hp2 := calculateEventPosition_mkRange (by omega : (0 : Nat) < 100)
    (by omega : (0 : Nat) < 100) h3 h4
  have hd2 : ¬((eh : ℚ) - ((0 : Nat) : ℚ) + ((em : ℚ) - ((0 : Nat) : ℚ)) / 60 ≤ 0) := by
    have hem' : (0 : ℚ) ≤ em := by positivity
    have heh' : (0 : ℚ) ≤ eh := by positivity
    push_cast
    intro hle
    rcases hne with h | h
    · have : (1 : ℚ) ≤ eh := by exact_mod_cast Nat.one_le_iff_ne_zero.2 h
      linarith
    · have : (1 : ℚ) ≤ em := by exact_mod_cast Nat.one_le_iff_ne_zero.2 h
      linarith
  rw [if_neg hd2] at hp2
  unfold splitHeightSum
  rw [hcur, eqr1, hp1, hnext, Option.some_bind, eqr2, hp2]
  show jsAdd (some _) (some _) = _
  unfold jsAdd
  push_cast
  ring_nf

/-- C4 witness: the amended theorem applied at "22:00-02:00": height sum
(24 - 22 + 2) * 40 = 160. -/
theorem c4_overnight_split_witness :
    isOvernightEvent (mkRange 22 0 2 0) = true ∧
    getCurrentDayTimeRange (mkRange 22 0 2 0) = String.toList "22:00-24:00" ∧
    getNextDayTimeRange (mkRange 22 0 2 0) = some (String.toList "00:00-02:00") ∧
    splitHeightSum (mkRange 22 0 2 0) = some 160 := by
  have h := c4_overnight_split 22 0 2 0 (by decide) (by decide) (by decide) (by decide)
    (Or.inl (by decide))
  exact ⟨h.1, by decide, by decide, by with_unfolding_all decide⟩

/-- C10: getCurrentDayTimeRange is idempotent on every string: its result
is either the input unchanged or a range whose end token is "24:00", and
applying the function to its own output returns that output unchanged. -/
theorem getCurrentDayTimeRange_idempotent (l : List Char) :
    getCurrentDayTimeRange (getCurrentDayTimeRange l) = getCurrentDayTimeRange l := by
  by_cases h : isOvernightEvent l
  · obtain ⟨p0, p1, e⟩ := overnight_two_parts h
    have hp0 : '-' ∉ p0 := not_mem_of_mem_splitOnChar (e ▸ List.mem_cons_self p0 [p1])
    have hgl : getCurrentDayTimeRange l = p0 ++ String.toList "-24:00" := by
      simp [getCurrentDayTimeRange, h, e]
    have h24 : String.toList "-24:00" = '-' :: String.toList "24:00" := by decide
    have hnm : '-' ∉ String.toList "24:00" := by decide
    have hsplit2 : splitOnChar '-' (p0 ++ String.toList "-24:00") =
        [p0, String.toList "24:00"] := by
      rw [h24, splitOnChar_append _ hp0, splitOnChar_of_not_mem hnm]
    rw [hgl]
    set m := p0 ++ String.toList "-24:00" with hm
    by_cases h2 : isOvernightEvent m
    · have hgm : getCurrentDayTimeRange m =
          (splitOnChar '-' m).headD [] ++ String.toList "-24:00" := by
        simp [getCurrentDayTimeRange, h2]
      rw [hgm, hsplit2]
      rfl
    · simp [getCurrentDayTimeRange, h2]
  · simp [getCurrentDayTimeRange, h]

/-- C6 counterexample: "aa-bb" is unparseable (its hour fields parse to
NaN), yet calculateEventPosition does not yield null: it returns a record
with NaN components, and the week view's truthiness guard then does
create a block for it. -/
theorem c6_counterexample :
    parseTimeString (String.toList "aa") = { hour := none, minute := some 0 } ∧
    calculateEventPosition (String.toList "aa-bb") =
      some { top := none, height := none } ∧
    weekViewTodayBlockCreated (String.toList "aa-bb") = true := by
  refine ⟨by decide, by with_unfolding_all decide, by with_unfolding_all decide⟩

/-- C6 (amended: calculateEventPosition yields null exactly for an empty
range or one that does not split into exactly two tokens on a dash; only
those events are skipped by the week view's truthiness guard — a
malformed range with two tokens yields a NaN-valued record and is still
rendered): the null results, and the skip condition of the rendering
guard, are characterised exactly. -/
theorem c6_null_iff (tr : List Char) :
    (calculateEventPosition tr = none ↔ tr = [] ∨ (splitOnChar '-' tr).length ≠ 2) ∧
    (weekViewTodayBlockCreated tr = false ↔ weekViewTodayPosition tr = none) := by
  constructor
  · by_cases he : tr.isEmpty
    · have htr : tr = [] := by
        cases tr with
        | nil => rfl
        | cons a l => simp at he
      simp [calculateEventPosition, htr]
    · have hne : tr ≠ [] := by
        intro h0
        rw [h0] at he
        exact he rfl
      unfold calculateEventPosition
      rw [if_neg (by simp [he])]
      rcases e : splitOnChar '-' tr with _ | ⟨p0, _ | ⟨p1, _ | ⟨q, qs⟩⟩⟩
      · exact absurd e (splitOnChar_ne_nil _ _)
      · simp [hne]
      · simp [hne]
      · simp [hne]
  · cases hw : weekViewTodayPosition tr <;>
      simp [weekViewTodayBlockCreated, hw]

theorem restoreCompletingElems_mem {dom : List JsElem} {e : JsElem} (he : e ∈ dom)
    (hc : "completing" ∈ e.classes) : restoreElem e ∈ restoreCompletingElems dom := by
  have h := List.mem_map_of_mem
    (fun x => if "completing" ∈ x.classes then restoreElem x else x) he
  unfold restoreCompletingElems
  simpa [hc] using h

theorem exists_enabled_complete_button {bs : List JsButton}
    (h : ∃ b ∈ bs, "complete-button" ∈ b.classes) :
    ∃ b ∈ restoreFirstCompleteButton bs,
      "complete-button" ∈ b.classes ∧ b.disabled = false ∧ b.textContent = "○" := by
  induction bs with
  | nil => simp at h
  | cons b bs ih =>
    by_cases hb : "complete-button" ∈ b.classes
    · refine ⟨{ b with disabled := false, textContent := "○" }, ?_, hb, rfl, rfl⟩
      simp [restoreFirstCompleteButton, hb]
    · obtain ⟨b', hb', hcls⟩ := h
      rcases List.mem_cons.1 hb' with rfl | htail
      · exact absurd hcls hb
      · obtain ⟨b2, hb2, hc2⟩ := ih ⟨b', htail, hcls⟩
        refine ⟨b2, ?_, hc2⟩
        have hr : restoreFirstCompleteButton (b :: bs) = b :: restoreFirstCompleteButton bs := by
          simp [restoreFirstCompleteButton, hb]
        rw [hr]
        exact List.mem_cons_of_mem _ hb2

/-- C1: from an Idle state (the id in neither set), a first call to
markEventCompleted issues exactly one POST to /api/events/id/complete and
puts the id into both the processing and the settled set; a second call
made before any response (i.e. on the resulting state) is rejected
because the id is already in those sets: it performs no action at all and
leaves the state and the DOM unchanged. -/
theorem c1_markEventCompleted_single_post (s : GuardState) (dom : List JsElem) (id : Nat)
    (completed : Bool) (cur : String)
    (hp : id ∉ s.processing) (hc : id ∉ s.completed) :
    countCompletePosts id (markEventCompletedStart id completed cur s dom).2.2 = 1 ∧
    id ∈ (markEventCompletedStart id completed cur s dom).1.processing ∧
    id ∈ (markEventCompletedStart id completed cur s dom).1.completed ∧
    markEventCompletedStart id completed cur (markEventCompletedStart id completed cur s dom).1
        (markEventCompletedStart id completed cur s dom).2.1 =
      ((markEventCompletedStart id completed cur s dom).1,
        (markEventCompletedStart id completed cur s dom).2.1, []) := by
  have e1 : markEventCompletedStart id completed cur s dom =
      ({ processing := insert id s.processing, completed := insert id s.completed },
        dom.map (fun e => if e.eventId = id then markElemCompleting e else e),
        (dom.filter (fun e => e.eventId = id)).map (fun _ => Act.scheduleRemoval 500) ++
          [Act.request ("POST") ("/api/events/" ++ toString id ++ "/complete")
            (some (completed,
              ((dom.find? (fun e => e.eventId = id)).map (fun e => e.date)).getD cur))]) := by
    unfold markEventCompletedStart
    rw [if_neg hc, if_neg hp]
  refine ⟨?_, ?_, ?_, ?_⟩
  · rw [e1]
    unfold countCompletePosts
    rw [List.filter_append, filter_map_const_nil _ _ _ (by rfl)]
    simp [List.filter_cons]
  · rw [e1]
    exact Finset.mem_insert_self _ _
  · rw [e1]
    exact Finset.mem_insert_self _ _
  · rw [e1]
    unfold markEventCompletedStart
    rw [if_pos (Finset.mem_insert_self id s.completed)]

/-- C1 witness: from the empty state, the first call for id 42 issues one
POST and the immediate second call is a no-op. -/
theorem c1_witness :
    countCompletePosts 42 (markEventCompletedStart 42 true "2024-06-02" ⟨∅, ∅⟩ []).2.2 = 1 ∧
    42 ∈ (markEventCompletedStart 42 true "2024-06-02" ⟨∅, ∅⟩ []).1.processing ∧
    42 ∈ (markEventCompletedStart 42 true "2024-06-02" ⟨∅, ∅⟩ []).1.completed ∧
    markEventCompletedStart 42 true "2024-06-02"
        (markEventCompletedStart 42 true "2024-06-02" ⟨∅, ∅⟩ []).1
        (markEventCompletedStart 42 true "2024-06-02" ⟨∅, ∅⟩ []).2.1 =
      ((markEventCompletedStart 42 true "2024-06-02" ⟨∅, ∅⟩ []).1,
        (markEventCompletedStart 42 true "2024-06-02" ⟨∅, ∅⟩ []).2.1, []) :=
  c1_markEventCompleted_single_post ⟨∅, ∅⟩ [] 42 true "2024-06-02" (by decide) (by decide)

/-- C2: when a completion request settles with a failure — a JSON body
whose status is not "success", or a transport error — the handler removes
the id from both the processing and the settled set, replaces the DOM
with the rollback pass, and every element that carried the optimistic
completing marker is restored: opacity "1", pointer events re-enabled,
and its complete button (when it has one) re-enabled with its original
label. -/
theorem c2_failure_rollback (id : Nat) (resp : Option RespData) (s : GuardState)
    (dom : List JsElem)
    (hfail : resp = none ∨ ∃ d, resp = some d ∧ d.status ≠ "success") :
    id ∉ (markEventCompletedSettle id resp s dom).1.processing ∧
    id ∉ (markEventCompletedSettle id resp s dom).1.completed ∧
    (markEventCompletedSettle id resp s dom).2.1 = restoreCompletingElems dom ∧
    ∀ e ∈ dom, "completing" ∈ e.classes →
      restoreElem e ∈ (markEventCompletedSettle id resp s dom).2.1 ∧
      (restoreElem e).opacity = "1" ∧
      (restoreElem e).pointerEvents = "auto" ∧
      ((∃ b ∈ e.buttons, "complete-button" ∈ b.classes) →
        ∃ b ∈ (restoreElem e).buttons,
          "complete-button" ∈ b.classes ∧ b.disabled = false ∧ b.textContent = "○") := by
  rcases hfail with rfl | ⟨d, rfl, hne⟩
  · have e1 : markEventCompletedSettle id none s dom =
        ({ processing := s.processing.erase id, completed := s.completed.erase id },
          restoreCompletingElems dom, [Act.alertShown ("更新事件状态时发生错误")]) := rfl
    rw [e1]
    refine ⟨Finset.not_mem_erase _ _, Finset.not_mem_erase _ _, rfl, ?_⟩
    intro e he hcl
    exact ⟨restoreCompletingElems_mem he hcl, rfl, rfl,
      fun hb => exists_enabled_complete_button hb⟩
  · have e1 : markEventCompletedSettle id (some d) s dom =
        (if d.status = "success" then
          ({ s with processing := s.processing.erase id }, dom,
            [Act.notified ("事件已标记为已完成"), Act.scheduleReload 700])
        else
          ({ processing := s.processing.erase id, completed := s.completed.erase id },
            restoreCompletingElems dom,
            [Act.alertShown ("更新事件状态失败: " ++ d.message)])) := rfl
    rw [e1, if_neg hne]
    refine ⟨Finset.not_mem_erase _ _, Finset.not_mem_erase _ _, rfl, ?_⟩
    intro e he hcl
    exact ⟨restoreCompletingElems_mem he hcl, rfl, rfl,
      fun hb => exists_enabled_complete_button hb⟩

/-- C2 witness: a failure response for id 42, with one faded element
carrying the completing marker, ends with 42 in neither set and the
element restored (opacity "1", complete button enabled, label "○"). -/
theorem c2_witness :
    42 ∉ (markEventCompletedSettle 42 (some { status := "error", message := "boom" })
      ⟨{42}, {42}⟩ [sampleFadedElem]).1.processing ∧
    42 ∉ (markEventCompletedSettle 42 (some { status := "error", message := "boom" })
      ⟨{42}, {42}⟩ [sampleFadedElem]).1.completed ∧
    (markEventCompletedSettle 42 (some { status := "error", message := "boom" })
      ⟨{42}, {42}⟩ [sampleFadedElem]).2.1 = [sampleRestoredElem] := by
  have h := c2_failure_rollback 42 (some { status := "error", message := "boom" })
    ⟨{42}, {42}⟩ [sampleFadedElem]
    (Or.inr ⟨{ status := "error", message := "boom" }, rfl, by decide⟩)
  exact ⟨h.1, h.2.1, by decide⟩

/-- C5 counterexample: deleteCompletedTask 42 from a state whose settled
set already contains 42 (and empty processing set) is not rejected — it
issues one DELETE request — and from the empty state it leaves the
settled set empty, so the delete operation neither consults nor eagerly
populates the settled set, contrary to the claim that both mutation
operations do. -/
theorem c5_counterexample :
    42 ∈ (⟨∅, {42}⟩ : GuardState).completed ∧
    countRequests (deleteCompletedTaskStart 42 ⟨∅, {42}⟩ []).2.2 = 1 ∧
    (deleteCompletedTaskStart 42 ⟨∅, {42}⟩ []).1.completed = {42} ∧
    42 ∉ (⟨∅, ∅⟩ : GuardState).completed ∧
    (deleteCompletedTaskStart 42 ⟨∅, ∅⟩ []).1.completed = ∅ ∧
    42 ∉ (deleteCompletedTaskStart 42 ⟨∅, ∅⟩ []).1.completed := by decide

/-- C5 (amended: the eager-settle discipline holds for complete only; the
delete function checks only the processing set, adds the id only to
processing, and neither consults nor updates the settled set before its
request): the guards of both operations are characterised exactly. -/
theorem c5_eager_settle_guard (s : GuardState) (dom : List JsElem) (id : Nat)
    (completed : Bool) (cur : String) :
    (id ∈ s.completed → markEventCompletedStart id completed cur s dom = (s, dom, [])) ∧
    (id ∉ s.completed → id ∈ s.processing →
      markEventCompletedStart id completed cur s dom = (s, dom, [])) ∧
    (id ∉ s.completed → id ∉ s.processing →
      (markEventCompletedStart id completed cur s dom).1.processing = insert id s.processing ∧
      (markEventCompletedStart id completed cur s dom).1.completed = insert id s.completed ∧
      countRequests (markEventCompletedStart id completed cur s dom).2.2 = 1) ∧
    (id ∈ s.processing → deleteCompletedTaskStart id s dom = (s, dom, [])) ∧
    (id ∉ s.processing →
      (deleteCompletedTaskStart id s dom).1.processing = insert id s.processing ∧
      (deleteCompletedTaskStart id s dom).1.completed = s.completed ∧
      countRequests (deleteCompletedTaskStart id s dom).2.2 = 1) := by
  refine ⟨?_, ?_, ?_, ?_, ?_⟩
  · intro hc
    unfold markEventCompletedStart
    rw [if_pos hc]
  · intro hc hp
    unfold markEventCompletedStart
    rw [if_neg hc, if_pos hp]
  · intro hc hp
    unfold markEventCompletedStart
    rw [if_neg hc, if_neg hp]
    refine ⟨rfl, rfl, ?_⟩
    unfold countRequests
    rw [List.filter_append, filter_map_const_nil _ _ _ (by rfl)]
    simp [List.filter_cons]
  · intro hp
    unfold deleteCompletedTaskStart
    rw [if_pos hp]
  · intro hp
    unfold deleteCompletedTaskStart
    rw [if_neg hp]
    refine ⟨rfl, rfl, ?_⟩
    unfold countRequests
    rw [List.filter_append, filter_map_const_nil _ _ _ (by rfl)]
    simp [List.filter_cons]

/-- C5 witness: a settled id is a no-op for complete; a fresh delete
issues one request and leaves the settled set untouched. -/
theorem c5_witness :
    markEventCompletedStart 42 true "2024-06-02" ⟨∅, {42}⟩ [] = (⟨∅, {42}⟩, [], []) ∧
    (deleteCompletedTaskStart 42 ⟨∅, ∅⟩ []).1.completed = ∅ ∧
    countRequests (deleteCompletedTaskStart 42 ⟨∅, ∅⟩ []).2.2 = 1 := by
  have h1 := c5_eager_settle_guard ⟨∅, {42}⟩ [] 42 true "2024-06-02"
  have h2 := c5_eager_settle_guard (⟨∅, ∅⟩ : GuardState) [] 42 true "2024-06-02"
  exact ⟨h1.1 (by decide), (h2.2.2.2.2 (by decide)).2.1, (h2.2.2.2.2 (by decide)).2.2⟩

/-- C8 counterexample: the delete button of the event-details panel calls
deleteCompletedTask directly: one DELETE request is issued and no
confirmation prompt is ever shown, so not every delete request is guarded
by a prompt. -/
theorem c8_counterexample :
    Act.confirmPrompt ∉ (detailsDeleteClick 42 ⟨∅, ∅⟩ []).2.2 ∧
    countDeleteRequests 42 (detailsDeleteClick 42 ⟨∅, ∅⟩ []).2.2 = 1 ∧
    (detailsDeleteClick 42 ⟨∅, ∅⟩ []).2.2 =
      [Act.request ("DELETE") ("/api/completed-tasks/42") none] := by decide

/-- C8 (amended: only deletes initiated from a list item's delete button
are guarded by a synchronous confirmation prompt — cancelling leaves both
sets unchanged and issues no request, and when the prompt is shown it
precedes every other action; deletes initiated from the event-details
panel issue the DELETE with no prompt at all). -/
theorem c8_delete_confirmation (id : Nat) (s : GuardState) (dom : List JsElem) :
    (id ∉ s.completed →
      renderItemDeleteClick id false s dom = (s, dom, [Act.confirmPrompt])) ∧
    (∀ accepted : Bool, id ∉ s.completed →
      (renderItemDeleteClick id accepted s dom).2.2.head? = some Act.confirmPrompt) ∧
    (id ∉ s.processing →
      Act.confirmPrompt ∉ (detailsDeleteClick id s dom).2.2 ∧
      countDeleteRequests id (detailsDeleteClick id s dom).2.2 = 1) := by
  refine ⟨?_, ?_, ?_⟩
  · intro hc
    unfold renderItemDeleteClick
    rw [if_neg hc]
    rfl
  · intro accepted hc
    unfold renderItemDeleteClick
    rw [if_neg hc]
    cases accepted <;> rfl
  · intro hp
    unfold detailsDeleteClick deleteCompletedTaskStart
    rw [if_neg hp]
    constructor
    · intro hmem
      rcases List.mem_append.1 hmem with hm | hm
      · obtain ⟨x, _, hx⟩ := List.mem_map.1 hm
        exact absurd hx (by simp)
      · rcases List.mem_cons.1 hm with hx | hx
        · exact absurd hx (by simp)
        · simp at hx
    · unfold countDeleteRequests
      rw [List.filter_append, filter_map_const_nil _ _ _ (by rfl)]
      simp [List.filter_cons]

/-- C8 witness: cancel leaves everything unchanged with only the prompt;
accept leads with the prompt; the details-panel path issues one request
and never prompts. -/
theorem c8_witness :
    renderItemDeleteClick 42 false ⟨∅, ∅⟩ [] = (⟨∅, ∅⟩, [], [Act.confirmPrompt]) ∧
    (renderItemDeleteClick 42 true ⟨∅, ∅⟩ []).2.2.head? = some Act.confirmPrompt ∧
    Act.confirmPrompt ∉ (detailsDeleteClick 42 ⟨∅, ∅⟩ []).2.2 ∧
    countDeleteRequests 42 (detailsDeleteClick 42 ⟨∅, ∅⟩ []).2.2 = 1 := by
  have h := c8_delete_confirmation 42 ⟨∅, ∅⟩ []
  exact ⟨h.1 (by decide), h.2.1 true (by decide), (h.2.2 (by decide)).1, (h.2.2 (by decide)).2⟩

/-- C7: a loadEvents call made while a load is outstanding and not
flagged as a retry changes nothing and issues no fetch; a transient
failure schedules the retry after a fixed 1000ms regardless of the retry
count (no exponential growth); MAX_RETRY_COUNT is 3; and in the run where
every fetch fails transiently, exactly 4 fetches are issued (the initial
call plus 3 retries) before the load is abandoned with the loading state
reset and a user-visible error notification. -/
theorem c7_load_guard_retry_bound :
    (∀ s : LoadState, s.isLoading = true → loadEventsStart false s = (s, [])) ∧
    (∀ s : LoadState, loadEventsOnError true s = (s, [LoadAct.retryScheduled 1000])) ∧
    MAX_RETRY_COUNT = 3 ∧
    allFailRun 10 false ⟨false, 0⟩ =
      ([[LoadAct.loadingShown, LoadAct.fetchIssued, LoadAct.retryScheduled 1000],
        [LoadAct.loadingShown, LoadAct.fetchIssued, LoadAct.retryScheduled 1000],
        [LoadAct.loadingShown, LoadAct.fetchIssued, LoadAct.retryScheduled 1000],
        [LoadAct.loadingShown, LoadAct.fetchIssued, LoadAct.retryScheduled 1000],
        [LoadAct.loadingHidden, LoadAct.errorNotified]], ⟨false, 0⟩) := by
  refine ⟨?_, ?_, rfl, by decide⟩
  · intro s h
    simp [loadEventsStart, h]
  · intro s
    rfl

/-- C7 witness: the guard and the fixed delay at a concrete in-flight
state with a nonzero retry count. -/
theorem c7_witness :
    loadEventsStart false ⟨true, 2⟩ = (⟨true, 2⟩, []) ∧
    loadEventsOnError true ⟨true, 2⟩ = (⟨true, 2⟩, [LoadAct.retryScheduled 1000]) := by
  have h := c7_load_guard_retry_bound
  exact ⟨h.1 ⟨true, 2⟩ rfl, h.2.1 ⟨true, 2⟩⟩
